import Mathlib

/-
Verification of the speaker-identification core of
`wispr-clone/backend/python_service/main.py`.

Embedding notes.
* Python floats are modelled as real numbers (`ℝ`); `np.linalg.norm` is
  `Real.sqrt` of the sum of squares, `np.dot` is the sum of pointwise
  products.
* The one place where IEEE semantics matters is the cosine division at
  line 127: when `norm(query) * norm(enrolled)` is `0.0` the quotient is
  `0.0 / 0.0 = NaN` in numpy (a RuntimeWarning, not an exception), and a
  comparison `NaN > best_score` is false, so such a pair never updates the
  running best.  We model this by letting the similarity be an
  `Option ℝ`: `none` for the NaN case, in which case the loop body at
  lines 128-130 leaves the accumulator unchanged.
* `np.dot` raises `ValueError` on a shape mismatch; that exception is
  caught by the handler's `try/except` (lines 106-140), which then returns
  `{"speaker": "Error", "confidence": 0.0}`.  At the level of observable
  results this is equivalent to returning `("Error", 0)` whenever some
  scanned pair has a length different from the query's, which is how
  `identify_speaker` is modelled below.
* The JSON file written by `save_db` / read by `load_db` is modelled by a
  `Json` value tree (numbers kept as `ℝ`, i.e. ignoring decimal-text
  formatting); a missing file is `none : Option Json`.
* Python dicts preserve insertion order, so `voice_db` is an association
  list `List (String × List EmbeddingVector)`; a new key is appended at
  the end (`enrollVec`), and iteration in `identify_speaker` follows list
  order.
-/

namespace Wispr

/-- An embedding vector: a list of floats (line 40: values of `voice_db`,
line 127: operands of `np.dot` / `np.linalg.norm`). -/
abbrev EmbeddingVector := List ℝ

/-- The in-memory voice database (line 40): an insertion-ordered mapping
from speaker name to the list of enrolled embedding vectors. -/
abbrev VoiceDatabase := List (String × List EmbeddingVector)

/-- `np.dot` on 1-D arrays: sum of pointwise products. -/
def dot (q e : List ℝ) : ℝ := (List.zipWith (fun a b => a * b) q e).sum

/-- Sum of squares of the entries of a vector. -/
def norm2 (v : List ℝ) : ℝ := (v.map (fun a => a * a)).sum

/-- `np.linalg.norm`: Euclidean norm, the square root of the sum of
squares. -/
noncomputable def norm (v : List ℝ) : ℝ := Real.sqrt (norm2 v)

/-- The cosine similarity computed at line 127:
`np.dot(query, enrolled) / (np.linalg.norm(query) * np.linalg.norm(enrolled))`.
When the denominator is `0.0` the numerator is also `0.0` (a zero norm
forces a zero vector), so numpy produces `NaN`; this is modelled as
`none`, and a `none` similarity fails the `>` comparison of line 128 just
as `NaN` does. -/
noncomputable def cosineSim (q e : List ℝ) : Option ℝ :=
  if norm q * norm e = 0 then none
  else some (dot q e / (norm q * norm e))

/-- The body of the inner loop, lines 128-130: update
`(best_score, best_match)` when the similarity is defined and strictly
exceeds the current best. -/
noncomputable def scanStep (acc : ℝ × String) (p : String × Option ℝ) : ℝ × String :=
  match p.2 with
  | none => acc
  | some s => if s > acc.1 then (s, p.1) else acc

/-- The scan loop of lines 120-130: fold over all speakers and all their
enrolled vectors, starting from `best_score = -1.0`, `best_match =
"Unknown"`. -/
noncomputable def scanDb (q : EmbeddingVector) (db : VoiceDatabase) : ℝ × String :=
  db.foldl
    (fun acc p => p.2.foldl (fun acc2 e => scanStep acc2 (p.1, cosineSim q e)) acc)
    (-1, "Unknown")

/-- All `(speaker, vector)` pairs of the database in iteration order:
insertion order of speakers, then insertion order of their vectors
(lines 123-126). -/
def pairs (db : VoiceDatabase) : List (String × EmbeddingVector) :=
  (db.map (fun p => p.2.map (fun e => (p.1, e)))).flatten

/-- The pairs of the database tagged with their similarity to the query,
in iteration order. -/
noncomputable def simPairs (q : EmbeddingVector) (db : VoiceDatabase) :
    List (String × Option ℝ) :=
  (pairs db).map (fun p => (p.1, cosineSim q p.2))

/-- The `/identify` handler, lines 98-140, as a function of the query
embedding (produced by the external provider) and the database:
* empty database: return `("Unknown", 0.0)` before any similarity is
  computed (lines 103-104);
* a shape mismatch between the query and some enrolled vector makes
  `np.dot` raise, the `except` at lines 138-140 catches it and the
  handler returns `("Error", 0.0)`;
* otherwise scan all pairs (lines 120-130) and apply the `0.70` threshold
  (lines 132-134): a best score strictly below `0.70` overrides the
  speaker to `"Unknown"` while keeping the raw score. -/
noncomputable def identify_speaker (q : EmbeddingVector) (db : VoiceDatabase) :
    String × ℝ :=
  match db with
  | [] => ("Unknown", 0)
  | _ :: _ =>
    if (pairs db).any (fun p => p.2.length != q.length) then ("Error", 0)
    else
      let r := scanDb q db
      if r.1 < 0.70 then ("Unknown", r.1) else (r.2, r.1)

/-- A JSON value, the shape of the persisted `embeddings.json`; numbers
are kept as reals (decimal formatting is not modelled). -/
inductive Json where
  | num (x : ℝ)
  | str (s : String)
  | arr (elems : List Json)
  | obj (fields : List (String × Json))

/-- Serialization of one embedding vector: `e.tolist()` inside the JSON
tree (line 59). -/
def encodeVec (v : EmbeddingVector) : Json := Json.arr (v.map Json.num)

/-- Serialization of the whole database, line 59:
`{k: [e.tolist() for e in v] for k, v in voice_db.items()}`. -/
def encodeDb (db : VoiceDatabase) : Json :=
  Json.obj (db.map (fun p => (p.1, Json.arr (p.2.map encodeVec))))

/-- `save_db` (lines 57-61): serialize the full database and overwrite the
storage location with it.  The function returns the file content that is
written. -/
def save_db (db : VoiceDatabase) : Json := encodeDb db

/-- Parsing one number back from JSON. -/
def decodeNum : Json → Option ℝ
  | Json.num x => some x
  | _ => none

/-- Parsing one embedding vector: `np.array(e)` on a JSON list of numbers
(line 53); anything else is malformed. -/
def decodeVec : Json → Option EmbeddingVector
  | Json.arr es => es.mapM decodeNum
  | _ => none

/-- Parsing the list of vectors of one speaker. -/
def decodeVecs : Json → Option (List EmbeddingVector)
  | Json.arr vs => vs.mapM decodeVec
  | _ => none

/-- Parsing the whole database: a JSON object whose fields map speaker
names to lists of vectors (lines 51-53); anything else is malformed. -/
def decodeDb : Json → Option VoiceDatabase
  | Json.obj fields =>
    fields.mapM (fun p => (decodeVecs p.2).map (fun vs => (p.1, vs)))
  | _ => none

/-- `load_db` (lines 46-55) as a function of the file content and the
current value of the global `voice_db`: a missing file leaves `voice_db`
untouched (line 48), malformed content is caught at line 54 and also
leaves `voice_db` untouched; both cases amount to an empty database at
startup, where `voice_db = {}` (line 40). -/
def load_db (file : Option Json) (current : VoiceDatabase) : VoiceDatabase :=
  match file with
  | none => current
  | some j =>
    match decodeDb j with
    | some db => db
    | none => current

/-- The mutation of `voice_db` performed by `/enroll` at lines 89-91:
append the new vector under the speaker's key, creating the key (at the
end, per dict insertion order) when absent. -/
def enrollVec (db : VoiceDatabase) (name : String) (emb : EmbeddingVector) :
    VoiceDatabase :=
  if db.any (fun p => p.1 == name) then
    db.map (fun p => if p.1 == name then (p.1, p.2 ++ [emb]) else p)
  else
    db ++ [(name, [emb])]

/-- Responses observable from the two handlers: an identification result,
a successful enrollment message, or an HTTP error (line 96). -/
inductive Response where
  | identified (speaker : String) (confidence : ℝ)
  | enrolled (message : String)
  | httpError (code : Nat)

/-- The mutable state of the service: the global `voice_db` (line 40) and
the content of `embeddings.json` (`none` when the file does not exist). -/
structure ServiceState where
  db : VoiceDatabase
  file : Option Json

/-- The two operations of the service, with the embedding vector already
produced by the external embedding provider. -/
inductive Op where
  | enroll (name : String) (emb : EmbeddingVector)
  | identify (q : EmbeddingVector)

/-- One request against the service.  `saveOk` tells whether the file
write inside `save_db` succeeds.  `/enroll` (lines 66-96) first appends
the vector to the in-memory database (lines 89-91) and then calls
`save_db` (line 92); if the write raises, the `except` at line 95 turns
it into an HTTP 500 error, but the in-memory append is not rolled back.
`/identify` (lines 98-140) never mutates `voice_db` and never writes
`embeddings.json`. -/
noncomputable def runOp (saveOk : Bool) (s : ServiceState) : Op → ServiceState × Response
  | Op.enroll name emb =>
    let db' := enrollVec s.db name emb
    if saveOk then
      (⟨db', some (save_db db')⟩, Response.enrolled ("Enrolled " ++ name))
    else
      (⟨db', s.file⟩, Response.httpError 500)
  | Op.identify q =>
    let r := identify_speaker q s.db
    (s, Response.identified r.1 r.2)

/-! ### Properties of the scan loop -/

theorem scanStep_none (acc : ℝ × String) (n : String) :
    scanStep acc (n, none) = acc := rfl

theorem scanStep_some (acc : ℝ × String) (n : String) (s : ℝ) :
    scanStep acc (n, some s) = if s > acc.1 then (s, n) else acc := rfl

/-- Invariant of the fold of lines 128-130: starting from `(b₀, n₀)`,
either no pair updates the accumulator (every defined similarity is at
most `b₀`), or the result is the maximal defined similarity paired with
the first name attaining it: the list splits around the returned pair,
with every earlier defined similarity strictly below it and every later
one at most it. -/
theorem scanFold_spec (l : List (String × Option ℝ)) :
    ∀ b₀ : ℝ, ∀ n₀ : String,
      (List.foldl scanStep (b₀, n₀) l = (b₀, n₀) ∧
        ∀ p ∈ l, ∀ x : ℝ, p.2 = some x → x ≤ b₀) ∨
      (b₀ < (List.foldl scanStep (b₀, n₀) l).1 ∧ ∃ l₁ l₂,
        l = l₁ ++ ((List.foldl scanStep (b₀, n₀) l).2,
            some (List.foldl scanStep (b₀, n₀) l).1) :: l₂ ∧
        (∀ p ∈ l₁, ∀ x : ℝ, p.2 = some x → x < (List.foldl scanStep (b₀, n₀) l).1) ∧
        (∀ p ∈ l₂, ∀ x : ℝ, p.2 = some x → x ≤ (List.foldl scanStep (b₀, n₀) l).1)) := by
  induction l with
  | nil =>
    intro b₀ n₀
    exact Or.inl ⟨rfl, by simp⟩
  | cons hd tl ih =>
    intro b₀ n₀
    cases hhd : hd.2 with
    | none =>
      have hstep : scanStep (b₀, n₀) hd = (b₀, n₀) := by
        unfold scanStep; rw [hhd]
      rw [List.foldl_cons, hstep]
      rcases ih b₀ n₀ with ⟨heq, hall⟩ | ⟨hlt, l₁, l₂, hsplit, h₁, h₂⟩
      · refine Or.inl ⟨heq, ?_⟩
        intro p hp x hx
        rcases List.mem_cons.mp hp with hph | hpt
        · simp [hph, hhd] at hx
        · exact hall p hpt x hx
      · refine Or.inr ⟨hlt, hd :: l₁, l₂, ?_, ?_, h₂⟩
        · rw [List.cons_append, ← hsplit]
        · intro p hp x hx
          rcases List.mem_cons.mp hp with hph | hpt
          · simp [hph, hhd] at hx
          · exact h₁ p hpt x hx
    | some s =>
      by_cases hcmp : s > b₀
      · have hstep : scanStep (b₀, n₀) hd = (s, hd.1) := by
          unfold scanStep; rw [hhd]; simp [hcmp]
        rw [List.foldl_cons, hstep]
        rcases ih s hd.1 with ⟨heq, hall⟩ | ⟨hlt, l₁, l₂, hsplit, h₁, h₂⟩
        · rw [heq]
          refine Or.inr ⟨hcmp, [], tl, ?_, by simp, ?_⟩
          · simp only [List.nil_append]
            rw [← hhd, Prod.mk.eta]
          · intro p hp x hx
            exact hall p hp x hx
        · refine Or.inr ⟨lt_trans hcmp hlt, hd :: l₁, l₂, ?_, ?_, h₂⟩
          · rw [List.cons_append, ← hsplit]
          · intro p hp x hx
            rcases List.mem_cons.mp hp with hph | hpt
            · rw [hph, hhd] at hx
              obtain rfl : s = x := Option.some.inj hx
              exact hlt
            · exact h₁ p hpt x hx
      · have hstep : scanStep (b₀, n₀) hd = (b₀, n₀) := by
          unfold scanStep; rw [hhd]; simp [hcmp]
        rw [List.foldl_cons, hstep]
        rcases ih b₀ n₀ with ⟨heq, hall⟩ | ⟨hlt, l₁, l₂, hsplit, h₁, h₂⟩
        · refine Or.inl ⟨heq, ?_⟩
          intro p hp x hx
          rcases List.mem_cons.mp hp with hph | hpt
          · rw [hph, hhd] at hx
            obtain rfl : s = x := Option.some.inj hx
            exact not_lt.mp hcmp
          · exact hall p hpt x hx
        · refine Or.inr ⟨hlt, hd :: l₁, l₂, ?_, ?_, h₂⟩
          · rw [List.cons_append, ← hsplit]
          · intro p hp x hx
            rcases List.mem_cons.mp hp with hph | hpt
            · rw [hph, hhd] at hx
              obtain rfl : s = x := Option.some.inj hx
              exact lt_of_le_of_lt (not_lt.mp hcmp) hlt
            · exact h₁ p hpt x hx

/-- Every defined similarity in the scanned list is bounded by the final
best score. -/
theorem scanFold_ub (l : List (String × Option ℝ)) (p : String × Option ℝ)
    (hp : p ∈ l) (x : ℝ) (hx : p.2 = some x) :
    x ≤ (List.foldl scanStep (-1, "Unknown") l).1 := by
  rcases scanFold_spec l (-1) "Unknown" with ⟨heq, hall⟩ | ⟨_, l₁, l₂, hsplit, h₁, h₂⟩
  · rw [heq]; exact hall p hp x hx
  · rw [hsplit] at hp
    rcases List.mem_append.mp hp with hp₁ | hp₂
    · exact le_of_lt (h₁ p hp₁ x hx)
    · rcases List.mem_cons.mp hp₂ with hph | hpt
      · rw [hph] at hx
        exact le_of_eq (Option.some.inj hx).symm
      · exact h₂ p hpt x hx

/-- If no pair has a defined similarity, the fold never updates the
accumulator. -/
theorem scanFold_all_none (l : List (String × Option ℝ))
    (h : ∀ p ∈ l, p.2 = none) : ∀ acc, List.foldl scanStep acc l = acc := by
  induction l with
  | nil => intro acc; rfl
  | cons hd tl ih =>
    intro acc
    have hh : hd.2 = none := h hd (List.mem_cons_self hd tl)
    have hstep : scanStep acc hd = acc := by unfold scanStep; rw [hh]
    rw [List.foldl_cons, hstep]
    exact ih (fun p hp => h p (List.mem_cons_of_mem hd hp)) acc

/-- The nested fold of lines 123-130 equals the flat fold over the pairs
in iteration order. -/
theorem scanDb_eq_fold (q : EmbeddingVector) (db : VoiceDatabase) :
    ∀ acc : ℝ × String,
      db.foldl
          (fun acc p => p.2.foldl (fun acc2 e => scanStep acc2 (p.1, cosineSim q e)) acc)
          acc
        = List.foldl scanStep acc (simPairs q db) := by
  induction db with
  | nil => intro acc; rfl
  | cons hd tl ih =>
    intro acc
    have hsp : simPairs q (hd :: tl)
        = (hd.2.map (fun e => (hd.1, cosineSim q e))) ++ simPairs q tl := by
      simp [simPairs, pairs, Function.comp]
    rw [List.foldl_cons, ih, hsp, List.foldl_append, List.foldl_map]

/-- The scan of lines 120-130 in terms of the flat pair list. -/
theorem scanDb_eq (q : EmbeddingVector) (db : VoiceDatabase) :
    scanDb q db = List.foldl scanStep (-1, "Unknown") (simPairs q db) :=
  scanDb_eq_fold q db (-1, "Unknown")

/-! ### Properties of enrollment -/

theorem lookup_cons_self (k : String) (v : List EmbeddingVector) (t : VoiceDatabase) :
    List.lookup k ((k, v) :: t) = some v := by
  simp [List.lookup]

theorem lookup_cons_ne (m k : String) (h : ¬ m = k) (v : List EmbeddingVector)
    (t : VoiceDatabase) :
    List.lookup m ((k, v) :: t) = List.lookup m t := by
  simp [List.lookup, beq_eq_false_iff_ne.mpr h]

theorem lookup_map_update (db : VoiceDatabase) (name m : String) (emb : EmbeddingVector) :
    List.lookup m (db.map (fun p => if p.1 == name then (p.1, p.2 ++ [emb]) else p))
      = (List.lookup m db).map (fun vs => if m == name then vs ++ [emb] else vs) := by
  induction db with
  | nil => rfl
  | cons hd tl ih =>
    obtain ⟨k, vs⟩ := hd
    simp only [List.map_cons]
    by_cases h1 : k = name
    · rw [if_pos (beq_iff_eq.mpr h1)]
      by_cases h2 : m = k
      · rw [h2, h1, lookup_cons_self, lookup_cons_self]
        simp
      · rw [lookup_cons_ne m k h2, lookup_cons_ne m k h2]
        exact ih
    · rw [if_neg (by rw [beq_eq_false_iff_ne.mpr h1]; exact Bool.false_ne_true)]
      by_cases h2 : m = k
      · have hmn : ¬ m = name := by rw [h2]; exact h1
        rw [h2, lookup_cons_self, lookup_cons_self]
        have hkn : ¬ k = name := h1
        simp [beq_eq_false_iff_ne.mpr hkn]
      · rw [lookup_cons_ne m k h2, lookup_cons_ne m k h2]
        exact ih

theorem lookup_none_of_any_false (db : VoiceDatabase) (name : String)
    (h : db.any (fun p => p.1 == name) = false) :
    List.lookup name db = none := by
  induction db with
  | nil => rfl
  | cons hd tl ih =>
    obtain ⟨k, vs⟩ := hd
    simp only [List.any_cons, Bool.or_eq_false_iff] at h
    have hk : k ≠ name := beq_eq_false_iff_ne.mp h.1
    rw [lookup_cons_ne name k (Ne.symm hk)]
    exact ih h.2

theorem lookup_some_of_any_true (db : VoiceDatabase) (name : String)
    (h : db.any (fun p => p.1 == name) = true) :
    ∃ l, List.lookup name db = some l := by
  induction db with
  | nil => simp at h
  | cons hd tl ih =>
    obtain ⟨k, vs⟩ := hd
    by_cases hk : name = k
    · exact ⟨vs, by rw [hk, lookup_cons_self]⟩
    · simp only [List.any_cons, Bool.or_eq_true] at h
      rcases h with h1 | h2
      · exact absurd (beq_iff_eq.mp h1).symm hk
      · obtain ⟨l, hl⟩ := ih h2
        exact ⟨l, by rw [lookup_cons_ne name k hk]; exact hl⟩

theorem lookup_append_right_absent (db : VoiceDatabase) (name : String)
    (x : List EmbeddingVector) :
    List.lookup name db = none →
    List.lookup name (db ++ [(name, x)]) = some x := by
  induction db with
  | nil => intro _; exact lookup_cons_self name x []
  | cons hd tl ih =>
    intro h
    obtain ⟨k, vs⟩ := hd
    by_cases hk : name = k
    · rw [hk, lookup_cons_self] at h
      cases h
    · rw [lookup_cons_ne name k hk] at h
      rw [List.cons_append, lookup_cons_ne name k hk]
      exact ih h

theorem lookup_append_other (db : VoiceDatabase) (name m : String)
    (x : List EmbeddingVector) (h : ¬ m = name) :
    List.lookup m (db ++ [(name, x)]) = List.lookup m db := by
  induction db with
  | nil => exact lookup_cons_ne m name h x []
  | cons hd tl ih =>
    obtain ⟨k, vs⟩ := hd
    by_cases hk : m = k
    · rw [hk, List.cons_append, lookup_cons_self, lookup_cons_self]
    · rw [List.cons_append, lookup_cons_ne m k hk, lookup_cons_ne m k hk]
      exact ih

/-- Appending under `name` (lines 89-91): the sequence of `name` gains
`emb` at its end, an absent key starting from the empty sequence. -/
theorem enrollVec_lookup_self (db : VoiceDatabase) (name : String) (emb : EmbeddingVector) :
    List.lookup name (enrollVec db name emb)
      = some (((List.lookup name db).getD []) ++ [emb]) := by
  unfold enrollVec
  cases hany : db.any (fun p => p.1 == name) with
  | true =>
    rw [if_pos rfl, lookup_map_update]
    obtain ⟨l, hl⟩ := lookup_some_of_any_true db name hany
    rw [hl]
    simp
  | false =>
    have hnone := lookup_none_of_any_false db name hany
    rw [if_neg Bool.false_ne_true]
    rw [lookup_append_right_absent db name [emb] hnone, hnone]
    rfl

/-- Enrollment does not touch any other speaker's sequence. -/
theorem enrollVec_lookup_other (db : VoiceDatabase) (name m : String)
    (emb : EmbeddingVector) (hm : ¬ m = name) :
    List.lookup m (enrollVec db name emb) = List.lookup m db := by
  unfold enrollVec
  cases hany : db.any (fun p => p.1 == name) with
  | true =>
    rw [if_pos rfl, lookup_map_update]
    simp [beq_eq_false_iff_ne.mpr hm]
  | false =>
    rw [if_neg Bool.false_ne_true]
    exact lookup_append_other db name m [emb] hm

/-- Enrollment always changes the database. -/
theorem enrollVec_ne (db : VoiceDatabase) (name : String) (emb : EmbeddingVector) :
    enrollVec db name emb ≠ db := by
  intro h
  have h2 := enrollVec_lookup_self db name emb
  rw [h] at h2
  cases hl : List.lookup name db with
  | none => rw [hl] at h2; cases h2
  | some l =>
    rw [hl] at h2
    have h3 : l = l ++ [emb] := by simpa using Option.some.inj h2
    have h4 := congrArg List.length h3
    simp at h4

/-- When `name` is not yet enrolled, the new key goes to the end of the
database (dict insertion order). -/
theorem enrollVec_absent (db : VoiceDatabase) (name : String) (emb : EmbeddingVector)
    (h : ∀ p ∈ db, p.1 ≠ name) : enrollVec db name emb = db ++ [(name, [emb])] := by
  unfold enrollVec
  have hfalse : ¬ (db.any (fun p => p.1 == name) = true) := by
    intro hc
    obtain ⟨p, hp, hpe⟩ := List.any_eq_true.mp hc
    exact h p hp (by simpa using hpe)
  rw [if_neg hfalse]

/-! ### Properties of persistence -/

theorem mapM_decodeNum (v : List ℝ) : (v.map Json.num).mapM decodeNum = some v := by
  induction v with
  | nil => rfl
  | cons a t ih =>
    rw [List.map_cons, List.mapM_cons, ih]
    rfl

theorem decodeVec_encodeVec (v : EmbeddingVector) : decodeVec (encodeVec v) = some v :=
  mapM_decodeNum v

theorem mapM_decodeVec (vs : List EmbeddingVector) :
    (vs.map encodeVec).mapM decodeVec = some vs := by
  induction vs with
  | nil => rfl
  | cons a t ih =>
    rw [List.map_cons, List.mapM_cons, decodeVec_encodeVec, ih]
    rfl

/-- Parsing inverts serialization on every database value. -/
theorem decodeDb_encodeDb (db : VoiceDatabase) : decodeDb (encodeDb db) = some db := by
  show (db.map (fun p => (p.1, Json.arr (p.2.map encodeVec)))).mapM
      (fun p => (decodeVecs p.2).map (fun vs => (p.1, vs))) = some db
  induction db with
  | nil => rfl
  | cons hd tl ih =>
    rw [List.map_cons, List.mapM_cons, ih]
    have hvecs : decodeVecs (Json.arr (hd.2.map encodeVec)) = some hd.2 :=
      mapM_decodeVec hd.2
    simp [hvecs]

/-! ### Facts about the cosine similarity -/

theorem norm2_nonneg (v : List ℝ) : 0 ≤ norm2 v := by
  unfold norm2
  apply List.sum_nonneg
  intro x hx
  obtain ⟨a, _, rfl⟩ := List.mem_map.mp hx
  exact mul_self_nonneg a

theorem dot_self (v : List ℝ) : dot v v = norm2 v := by
  unfold dot norm2
  rw [List.zipWith_same]

theorem norm_mul_self (v : List ℝ) : norm v * norm v = norm2 v :=
  Real.mul_self_sqrt (norm2_nonneg v)

/-- A vector of nonzero norm has cosine similarity exactly `1` with
itself. -/
theorem cosineSim_self (v : List ℝ) (hv : norm2 v ≠ 0) : cosineSim v v = some 1 := by
  unfold cosineSim
  rw [norm_mul_self, dot_self, if_neg hv, div_self hv]

/-! ### Pair-list algebra and unfolding of identify -/

theorem pairs_append (db₁ db₂ : VoiceDatabase) :
    pairs (db₁ ++ db₂) = pairs db₁ ++ pairs db₂ := by
  unfold pairs
  rw [List.map_append, List.flatten_append]

theorem simPairs_append (q : EmbeddingVector) (db₁ db₂ : VoiceDatabase) :
    simPairs q (db₁ ++ db₂) = simPairs q db₁ ++ simPairs q db₂ := by
  unfold simPairs
  rw [pairs_append, List.map_append]

theorem pairs_single (n : String) (v : EmbeddingVector) :
    pairs [(n, [v])] = [(n, v)] := rfl

theorem simPairs_single (q : EmbeddingVector) (n : String) (v : EmbeddingVector) :
    simPairs q [(n, [v])] = [(n, cosineSim q v)] := rfl

/-- Unfolding of the `/identify` handler on a non-empty database. -/
theorem identify_cons (q : EmbeddingVector) (hd : String × List EmbeddingVector)
    (tl : VoiceDatabase) :
    identify_speaker q (hd :: tl)
      = (if (pairs (hd :: tl)).any (fun p => p.2.length != q.length) then ("Error", 0)
         else if (scanDb q (hd :: tl)).1 < 0.70
           then ("Unknown", (scanDb q (hd :: tl)).1)
           else ((scanDb q (hd :: tl)).2, (scanDb q (hd :: tl)).1)) := rfl

theorem identify_of_ne_nil (q : EmbeddingVector) (db : VoiceDatabase) (h : db ≠ []) :
    identify_speaker q db
      = (if (pairs db).any (fun p => p.2.length != q.length) then ("Error", 0)
         else if (scanDb q db).1 < 0.70
           then ("Unknown", (scanDb q db).1)
           else ((scanDb q db).2, (scanDb q db).1)) := by
  cases db with
  | nil => exact absurd rfl h
  | cons hd tl => exact identify_cons q hd tl

/-- If every similarity in `l` is defined-and-below-one, appending a pair
with similarity exactly `1` makes the scan return that pair. -/
theorem scanFold_append_max (l : List (String × Option ℝ)) (S : String)
    (h : ∀ p ∈ l, ∀ x : ℝ, p.2 = some x → x < 1) :
    List.foldl scanStep (-1, "Unknown") (l ++ [(S, some 1)]) = (1, S) := by
  rw [List.foldl_append]
  have hgen : ∀ r : ℝ × String, List.foldl scanStep (-1, "Unknown") l = r → r.1 < 1 := by
    intro r hr
    rcases scanFold_spec l (-1) "Unknown" with ⟨heq, _⟩ | ⟨_, l₁, l₂, hsplit, _, _⟩
    · rw [hr] at heq
      rw [heq]
      norm_num
    · rw [hr] at hsplit
      refine h (r.2, some r.1) ?_ r.1 rfl
      rw [hsplit]
      exact List.mem_append_right l₁ (List.mem_cons_self _ _)
  have hlt : (List.foldl scanStep (-1, "Unknown") l).1 < 1 := hgen _ rfl
  rw [List.foldl_cons, List.foldl_nil, scanStep_some, if_pos hlt]

/-! ### Concrete evaluations used by witnesses and counterexamples -/

theorem norm_two (a b : ℝ) : norm [a, b] = Real.sqrt (a * a + b * b) := by
  unfold norm norm2
  simp

theorem norm_pair_10 : norm [(1 : ℝ), 0] = 1 := by
  rw [norm_two]; norm_num [Real.sqrt_one]

theorem norm_pair_01 : norm [(0 : ℝ), 1] = 1 := by
  rw [norm_two]; norm_num [Real.sqrt_one]

theorem norm_pair_neg10 : norm [(-1 : ℝ), 0] = 1 := by
  rw [norm_two]; norm_num [Real.sqrt_one]

theorem norm_pair_00 : norm [(0 : ℝ), 0] = 0 := by
  rw [norm_two]; norm_num [Real.sqrt_zero]

theorem dot_two (a b c d : ℝ) : dot [a, b] [c, d] = a * c + b * d := by
  unfold dot
  simp

theorem cosineSim_10_10 : cosineSim [(1 : ℝ), 0] [1, 0] = some 1 := by
  unfold cosineSim
  rw [norm_pair_10, dot_two]
  norm_num

theorem cosineSim_10_01 : cosineSim [(1 : ℝ), 0] [0, 1] = some 0 := by
  unfold cosineSim
  rw [norm_pair_10, norm_pair_01, dot_two]
  norm_num

theorem cosineSim_10_neg10 : cosineSim [(1 : ℝ), 0] [-1, 0] = some (-1) := by
  unfold cosineSim
  rw [norm_pair_10, norm_pair_neg10, dot_two]
  norm_num

theorem cosineSim_10_00 : cosineSim [(1 : ℝ), 0] [0, 0] = none := by
  unfold cosineSim
  rw [norm_pair_00]
  norm_num

theorem scanStep_some_pair (b : ℝ) (n0 n : String) (s : ℝ) :
    scanStep (b, n0) (n, some s) = if s > b then (s, n) else (b, n0) := rfl

theorem scanDb_single_some (q v : EmbeddingVector) (n : String) (s : ℝ)
    (hcs : cosineSim q v = some s) (hs : -1 < s) :
    scanDb q [(n, [v])] = (s, n) := by
  rw [scanDb_eq, simPairs_single, hcs, List.foldl_cons, List.foldl_nil,
    scanStep_some_pair, if_pos hs]

theorem scanDb_single_none (q v : EmbeddingVector) (n : String)
    (hcs : cosineSim q v = none) :
    scanDb q [(n, [v])] = (-1, "Unknown") := by
  rw [scanDb_eq, simPairs_single, hcs, List.foldl_cons, List.foldl_nil, scanStep_none]

/-! ### Claim theorems -/

/-- Claim C3 counterexample: on the empty database the code returns the
capitalized sentinel `"Unknown"` (line 104), not `"unknown"` as the claim
states; speaker identifiers are case-sensitive strings. -/
theorem c3_empty_counterexample :
    identify_speaker [1] [] = ("Unknown", 0) ∧ ("Unknown" : String) ≠ "unknown" :=
  ⟨rfl, by decide⟩

/-- Claim C3 (amended): identifying against the empty database returns
`("Unknown", 0.0)` for every query vector, by the early return of lines
103-104, before any similarity is computed. -/
theorem c3_identify_empty (q : EmbeddingVector) :
    identify_speaker q [] = ("Unknown", 0) := rfl

/-- Claim C9: an identify request leaves the whole service state — the
in-memory `voice_db` and the persisted `embeddings.json` — unchanged,
whatever the outcome (empty-database early return, match, below-threshold
override, or error). -/
theorem c9_identify_frame (saveOk : Bool) (s : ServiceState) (q : EmbeddingVector) :
    (runOp saveOk s (Op.identify q)).1 = s := rfl

/-- Claim C5: persistence round-trip: saving a database with at least one
speaker owning at least one vector, all vectors of one dimension `D`, and
loading the result back yields the same database, whatever the in-memory
database held before the load. -/
theorem c5_load_save_roundtrip (db cur : VoiceDatabase) (D : ℕ)
    (hne : ∃ p ∈ db, p.2 ≠ []) (hdim : ∀ p ∈ pairs db, p.2.length = D) :
    load_db (some (save_db db)) cur = db := by
  simp only [load_db, save_db, decodeDb_encodeDb]

/-- Claim C5 witness: a concrete one-speaker database round-trips. -/
theorem c5_roundtrip_witness :
    load_db (some (save_db [("alice", [[1, 0]])])) [] = [("alice", [[1, 0]])] :=
  c5_load_save_roundtrip [("alice", [[1, 0]])] [] 2
    ⟨("alice", [[1, 0]]), by simp, by simp⟩
    (by intro p hp
        rw [pairs_single] at hp
        rcases List.mem_singleton.mp hp with rfl
        rfl)

/-- Claim C7: with the startup value of `voice_db` (the empty database,
line 40), a missing `embeddings.json` and a malformed one both leave the
database empty, and neither case surfaces a failure to the caller. -/
theorem c7_load_db_fallback (j : Json) (hbad : decodeDb j = none) :
    load_db none [] = [] ∧ load_db (some j) [] = [] := by
  refine ⟨rfl, ?_⟩
  simp only [load_db, hbad]

/-- Claim C7 witness: a JSON string is not a database object, so it is
malformed content. -/
theorem c7_fallback_witness :
    load_db none [] = [] ∧ load_db (some (Json.str "oops")) [] = [] :=
  c7_load_db_fallback (Json.str "oops") rfl

/-- Claim C2 counterexample: with one enrolled vector orthogonal to the
query the best similarity is `0 < 0.70`, and the code returns the
capitalized sentinel `"Unknown"`, not `"unknown"` as the claim states. -/
theorem c2_threshold_counterexample :
    identify_speaker [(1 : ℝ), 0] [("alice", [[0, 1]])] = ("Unknown", 0) ∧
    (0 : ℝ) < 0.70 ∧ ("Unknown" : String) ≠ "unknown" := by
  refine ⟨?_, by norm_num, by decide⟩
  rw [identify_cons]
  have h1 : (pairs [("alice", [[0, 1]])]).any
      (fun p => p.2.length != ([(1 : ℝ), 0]).length) = false := by
    simp [pairs]
  rw [h1, if_neg Bool.false_ne_true,
    scanDb_single_some [(1 : ℝ), 0] [0, 1] "alice" 0 cosineSim_10_01 (by norm_num)]
  have h3 : ((0 : ℝ), ("alice" : String)).1 < 0.70 := by
    show (0 : ℝ) < 0.70
    norm_num
  rw [if_pos h3]

/-- Claim C2 (amended): on a non-empty database whose vectors all match
the query's dimension, if the scan's best score is strictly below `0.70`
the handler returns the sentinel `"Unknown"` (capitalized, as in the
code) paired with the raw best score, unclamped; the best score bounds
every defined similarity of the scan. -/
theorem c2_threshold_override (q : EmbeddingVector) (db : VoiceDatabase)
    (hne : db ≠ [])
    (hdim : ∀ p ∈ pairs db, p.2.length = q.length)
    (hlt : (scanDb q db).1 < 0.70) :
    identify_speaker q db = ("Unknown", (scanDb q db).1) ∧
    ∀ p ∈ simPairs q db, ∀ x : ℝ, p.2 = some x → x ≤ (scanDb q db).1 := by
  constructor
  · rw [identify_of_ne_nil q db hne]
    have h1 : (pairs db).any (fun p => p.2.length != q.length) = false := by
      rw [List.any_eq_false]
      intro p hp
      simp [hdim p hp]
    rw [h1, if_neg Bool.false_ne_true, if_pos hlt]
  · intro p hp x hx
    rw [scanDb_eq]
    exact scanFold_ub (simPairs q db) p hp x hx

/-- Claim C2 witness: the amended claim applied to a concrete one-speaker
database with an orthogonal query. -/
theorem c2_override_witness :
    ([("bob", [[0, 1]])] : VoiceDatabase) ≠ [] ∧
    (∀ p ∈ pairs ([("bob", [[0, 1]])] : VoiceDatabase),
      p.2.length = ([(1 : ℝ), 0]).length) ∧
    (scanDb [(1 : ℝ), 0] [("bob", [[0, 1]])]).1 < 0.70 ∧
    (identify_speaker [(1 : ℝ), 0] [("bob", [[0, 1]])]
        = ("Unknown", (scanDb [(1 : ℝ), 0] [("bob", [[0, 1]])]).1) ∧
      ∀ p ∈ simPairs [(1 : ℝ), 0] [("bob", [[0, 1]])], ∀ x : ℝ,
        p.2 = some x → x ≤ (scanDb [(1 : ℝ), 0] [("bob", [[0, 1]])]).1) := by
  have hne : ([("bob", [[0, 1]])] : VoiceDatabase) ≠ [] := by simp
  have hdim : ∀ p ∈ pairs ([("bob", [[0, 1]])] : VoiceDatabase),
      p.2.length = ([(1 : ℝ), 0]).length := by
    intro p hp
    rw [pairs_single] at hp
    rcases List.mem_singleton.mp hp with rfl
    rfl
  have hlt : (scanDb [(1 : ℝ), 0] [("bob", [[0, 1]])]).1 < 0.70 := by
    rw [scanDb_single_some [(1 : ℝ), 0] [0, 1] "bob" 0 cosineSim_10_01 (by norm_num)]
    show (0 : ℝ) < 0.70
    norm_num
  exact ⟨hne, hdim, hlt, c2_threshold_override [(1 : ℝ), 0] [("bob", [[0, 1]])] hne hdim hlt⟩

/-- Claim C4 counterexample: a zero-norm enrolled vector does not produce
an error result: its similarity is NaN (modelled `none`), which fails the
`>` comparison just as in numpy, so the scan never updates and the
handler returns `("Unknown", -1.0)` — not a result of kind `"Error"`. -/
theorem c4_zero_norm_counterexample :
    identify_speaker [(1 : ℝ), 0] [("alice", [[0, 0]])] = ("Unknown", -1) ∧
    ("Unknown" : String) ≠ "Error" := by
  refine ⟨?_, by decide⟩
  rw [identify_cons]
  have h1 : (pairs [("alice", [[0, 0]])]).any
      (fun p => p.2.length != ([(1 : ℝ), 0]).length) = false := by
    simp [pairs]
  rw [h1, if_neg Bool.false_ne_true,
    scanDb_single_none [(1 : ℝ), 0] [0, 0] "alice" cosineSim_10_00]
  have h3 : ((-1 : ℝ), ("Unknown" : String)).1 < 0.70 := by
    show (-1 : ℝ) < 0.70
    norm_num
  rw [if_pos h3]

/-- Claim C4 (amended): on a non-empty database, a failure that actually
raises during the similarity computation (a dimension mismatch in
`np.dot`) is caught and reported as `("Error", 0.0)`; but a zero-norm
query or enrolled vector does not raise: its NaN similarity is skipped by
the comparison, and when every pair is skipped the handler returns
`("Unknown", -1.0)`. -/
theorem c4_failure_handling (q : EmbeddingVector) (db : VoiceDatabase) (hne : db ≠ []) :
    ((pairs db).any (fun p => p.2.length != q.length) = true →
        identify_speaker q db = ("Error", 0)) ∧
    ((∀ p ∈ pairs db, p.2.length = q.length) →
      (∀ p ∈ simPairs q db, p.2 = none) →
        identify_speaker q db = ("Unknown", -1)) := by
  constructor
  · intro hmis
    rw [identify_of_ne_nil q db hne, hmis, if_pos rfl]
  · intro hdim hnone
    rw [identify_of_ne_nil q db hne]
    have h1 : (pairs db).any (fun p => p.2.length != q.length) = false := by
      rw [List.any_eq_false]
      intro p hp
      simp [hdim p hp]
    have h2 : scanDb q db = (-1, "Unknown") := by
      rw [scanDb_eq]
      exact scanFold_all_none (simPairs q db) hnone _
    have h3 : ((-1 : ℝ), ("Unknown" : String)).1 < 0.70 := by
      show (-1 : ℝ) < 0.70
      norm_num
    rw [h1, if_neg Bool.false_ne_true, h2, if_pos h3]

/-- Claim C4 witness: the amended claim applied to a database holding one
zero vector. -/
theorem c4_handling_witness :
    ([("dave", [[0, 0]])] : VoiceDatabase) ≠ [] ∧
    (((pairs [("dave", [[0, 0]])]).any
          (fun p => p.2.length != ([(1 : ℝ), 0]).length) = true →
        identify_speaker [(1 : ℝ), 0] [("dave", [[0, 0]])] = ("Error", 0)) ∧
      ((∀ p ∈ pairs [("dave", [[0, 0]])], p.2.length = ([(1 : ℝ), 0]).length) →
        (∀ p ∈ simPairs [(1 : ℝ), 0] [("dave", [[0, 0]])], p.2 = none) →
          identify_speaker [(1 : ℝ), 0] [("dave", [[0, 0]])] = ("Unknown", -1))) :=
  ⟨by simp, c4_failure_handling [(1 : ℝ), 0] [("dave", [[0, 0]])] (by simp)⟩

/-- Evaluation of the scan on two speakers enrolled with identical
vectors: the strict `>` keeps the first one. -/
theorem scanDb_two_identical :
    scanDb [(1 : ℝ), 0] [("alice", [[1, 0]]), ("bob", [[1, 0]])] = (1, "alice") := by
  rw [scanDb_eq]
  show List.foldl scanStep (-1, "Unknown")
      [("alice", cosineSim [(1 : ℝ), 0] [1, 0]),
       ("bob", cosineSim [(1 : ℝ), 0] [1, 0])] = (1, "alice")
  rw [cosineSim_10_10, List.foldl_cons, scanStep_some_pair,
    if_pos (by norm_num : (1 : ℝ) > -1), List.foldl_cons, List.foldl_nil,
    scanStep_some_pair, if_neg (by norm_num : ¬ ((1 : ℝ) > 1))]

/-- Claim C1 counterexample: with one enrolled vector of cosine
similarity exactly `-1.0` to the query, the maximum is attained by
`"alice"`, yet the scan (and the whole handler) returns `"Unknown"`: the
running best is initialized to `-1.0` and only a strictly greater score
can replace it (lines 120-121, 128). -/
theorem c1_initial_score_counterexample :
    scanDb [(1 : ℝ), 0] [("alice", [[-1, 0]])] = (-1, "Unknown") ∧
    identify_speaker [(1 : ℝ), 0] [("alice", [[-1, 0]])] = ("Unknown", -1) ∧
    cosineSim [(1 : ℝ), 0] [-1, 0] = some (-1) ∧
    ("Unknown" : String) ≠ "alice" := by
  have hscan : scanDb [(1 : ℝ), 0] [("alice", [[-1, 0]])] = (-1, "Unknown") := by
    rw [scanDb_eq, simPairs_single, cosineSim_10_neg10, List.foldl_cons, List.foldl_nil,
      scanStep_some_pair, if_neg (by norm_num : ¬ ((-1 : ℝ) > -1))]
  refine ⟨hscan, ?_, cosineSim_10_neg10, by decide⟩
  rw [identify_cons]
  have h1 : (pairs [("alice", [[-1, 0]])]).any
      (fun p => p.2.length != ([(1 : ℝ), 0]).length) = false := by
    simp [pairs]
  have h3 : ((-1 : ℝ), ("Unknown" : String)).1 < 0.70 := by
    show (-1 : ℝ) < 0.70
    norm_num
  rw [h1, if_neg Bool.false_ne_true, hscan, if_pos h3]

/-- Claim C1 (amended): whenever the scan's best score exceeds its
initial value `-1.0`, the similarity-tagged pair list splits around the
returned (speaker, score) pair: the returned score is that pair's
similarity, every pair before it in iteration order has a defined
similarity strictly below it (or an undefined NaN one), and every pair
after it scores at most it — i.e. the scan visits every pair and returns
the maximum similarity with the first speaker of iteration order
attaining it, ties resolved to the earlier pair by the strict `>`. -/
theorem c1_scan_argmax (q : EmbeddingVector) (db : VoiceDatabase)
    (hb : -1 < (scanDb q db).1) :
    ∃ l₁ l₂, simPairs q db = l₁ ++ ((scanDb q db).2, some (scanDb q db).1) :: l₂ ∧
      (∀ p ∈ l₁, ∀ x : ℝ, p.2 = some x → x < (scanDb q db).1) ∧
      (∀ p ∈ l₂, ∀ x : ℝ, p.2 = some x → x ≤ (scanDb q db).1) := by
  rw [scanDb_eq] at hb ⊢
  rcases scanFold_spec (simPairs q db) (-1) "Unknown" with ⟨heq, _⟩ |
    ⟨_, l₁, l₂, hsplit, h₁, h₂⟩
  · rw [heq] at hb
    exact absurd hb (lt_irrefl (-1 : ℝ))
  · exact ⟨l₁, l₂, hsplit, h₁, h₂⟩

/-- Claim C1 witness: two speakers enrolled with identical vectors; the
scan returns `("alice", 1)` — the first enrolled — and the split produced
by the claim theorem locates that pair. -/
theorem c1_argmax_witness :
    (-1 : ℝ) < (scanDb [(1 : ℝ), 0] [("alice", [[1, 0]]), ("bob", [[1, 0]])]).1 ∧
    scanDb [(1 : ℝ), 0] [("alice", [[1, 0]]), ("bob", [[1, 0]])] = (1, "alice") ∧
    (∃ l₁ l₂, simPairs [(1 : ℝ), 0] [("alice", [[1, 0]]), ("bob", [[1, 0]])]
        = l₁ ++ ((scanDb [(1 : ℝ), 0] [("alice", [[1, 0]]), ("bob", [[1, 0]])]).2,
            some (scanDb [(1 : ℝ), 0] [("alice", [[1, 0]]), ("bob", [[1, 0]])]).1) :: l₂ ∧
      (∀ p ∈ l₁, ∀ x : ℝ, p.2 = some x →
        x < (scanDb [(1 : ℝ), 0] [("alice", [[1, 0]]), ("bob", [[1, 0]])]).1) ∧
      (∀ p ∈ l₂, ∀ x : ℝ, p.2 = some x →
        x ≤ (scanDb [(1 : ℝ), 0] [("alice", [[1, 0]]), ("bob", [[1, 0]])]).1)) := by
  have hb : (-1 : ℝ) < (scanDb [(1 : ℝ), 0] [("alice", [[1, 0]]), ("bob", [[1, 0]])]).1 := by
    rw [scanDb_two_identical]
    exact (by norm_num : (-1 : ℝ) < 1)
  exact ⟨hb, scanDb_two_identical, c1_scan_argmax [(1 : ℝ), 0] _ hb⟩

/-- Claim C6: a successful enrollment appends the vector at the end of
the speaker's sequence (creating it when the key is absent), leaves every
other speaker's sequence unchanged, and synchronously persists the whole
updated database as the new file content. -/
theorem c6_enroll_appends_and_persists (s : ServiceState) (name : String)
    (emb : EmbeddingVector) (m : String) (hm : ¬ m = name) :
    (runOp true s (Op.enroll name emb)).1.db = enrollVec s.db name emb ∧
    (runOp true s (Op.enroll name emb)).1.file
      = some (encodeDb (enrollVec s.db name emb)) ∧
    List.lookup name (enrollVec s.db name emb)
      = some (((List.lookup name s.db).getD []) ++ [emb]) ∧
    List.lookup m (enrollVec s.db name emb) = List.lookup m s.db :=
  ⟨rfl, rfl, enrollVec_lookup_self s.db name emb,
    enrollVec_lookup_other s.db name m emb hm⟩

/-- Claim C6 witness: enrolling `"bob"` into a database holding only
`"alice"`. -/
theorem c6_enroll_witness :
    ¬ ("alice" : String) = "bob" ∧
    ((runOp true ⟨[("alice", [[1, 0]])], none⟩ (Op.enroll "bob" [0, 1])).1.db
        = enrollVec [("alice", [[1, 0]])] "bob" [0, 1] ∧
      (runOp true ⟨[("alice", [[1, 0]])], none⟩ (Op.enroll "bob" [0, 1])).1.file
        = some (encodeDb (enrollVec [("alice", [[1, 0]])] "bob" [0, 1])) ∧
      List.lookup "bob" (enrollVec [("alice", [[1, 0]])] "bob" [0, 1])
        = some (((List.lookup "bob" ([("alice", [[1, 0]])] : VoiceDatabase)).getD [])
            ++ [[0, 1]]) ∧
      List.lookup "alice" (enrollVec [("alice", [[1, 0]])] "bob" [0, 1])
        = List.lookup "alice" ([("alice", [[1, 0]])] : VoiceDatabase)) :=
  ⟨by decide,
    c6_enroll_appends_and_persists ⟨[("alice", [[1, 0]])], none⟩ "bob" [0, 1] "alice"
      (by decide)⟩

/-- Claim C10: when the save inside `/enroll` fails, the handler reports
an HTTP 500 failure, yet the in-memory database already contains the
appended vector while the persisted file still encodes the pre-enrollment
database: memory and persisted state disagree. -/
theorem c10_enroll_not_atomic (s : ServiceState) (name : String) (emb : EmbeddingVector)
    (hfile : s.file = some (encodeDb s.db)) :
    (runOp false s (Op.enroll name emb)).1.db = enrollVec s.db name emb ∧
    (runOp false s (Op.enroll name emb)).2 = Response.httpError 500 ∧
    (runOp false s (Op.enroll name emb)).1.file = some (encodeDb s.db) ∧
    load_db (runOp false s (Op.enroll name emb)).1.file []
      ≠ (runOp false s (Op.enroll name emb)).1.db := by
  refine ⟨rfl, rfl, hfile, ?_⟩
  show load_db s.file [] ≠ enrollVec s.db name emb
  rw [hfile]
  simp only [load_db, decodeDb_encodeDb]
  exact (enrollVec_ne s.db name emb).symm

/-- Claim C10 witness: a failing save while enrolling `"bob"` into a
persisted one-speaker database. -/
theorem c10_not_atomic_witness :
    (⟨[("alice", [[1, 0]])], some (encodeDb [("alice", [[1, 0]])])⟩ : ServiceState).file
        = some (encodeDb [("alice", [[1, 0]])]) ∧
    ((runOp false ⟨[("alice", [[1, 0]])], some (encodeDb [("alice", [[1, 0]])])⟩
          (Op.enroll "bob" [0, 1])).1.db
        = enrollVec [("alice", [[1, 0]])] "bob" [0, 1] ∧
      (runOp false ⟨[("alice", [[1, 0]])], some (encodeDb [("alice", [[1, 0]])])⟩
          (Op.enroll "bob" [0, 1])).2 = Response.httpError 500 ∧
      (runOp false ⟨[("alice", [[1, 0]])], some (encodeDb [("alice", [[1, 0]])])⟩
          (Op.enroll "bob" [0, 1])).1.file = some (encodeDb [("alice", [[1, 0]])]) ∧
      load_db (runOp false ⟨[("alice", [[1, 0]])], some (encodeDb [("alice", [[1, 0]])])⟩
          (Op.enroll "bob" [0, 1])).1.file []
        ≠ (runOp false ⟨[("alice", [[1, 0]])], some (encodeDb [("alice", [[1, 0]])])⟩
            (Op.enroll "bob" [0, 1])).1.db) :=
  ⟨rfl, c10_enroll_not_atomic
    ⟨[("alice", [[1, 0]])], some (encodeDb [("alice", [[1, 0]])])⟩ "bob" [0, 1] rfl⟩

/-- Claim C8 counterexample: enrolling `"alice"` with `[1, 0]` and then
`"bob"` with the same vector, querying with that vector returns
`("alice", 1)` — not `"bob"`, the speaker who enrolled the query vector —
because the strict `>` keeps the first of two equal scores. -/
theorem c8_tie_counterexample :
    identify_speaker [(1 : ℝ), 0]
        (enrollVec (enrollVec [] "alice" [1, 0]) "bob" [1, 0]) = ("alice", 1) ∧
    ("alice" : String) ≠ "bob" := by
  refine ⟨?_, by decide⟩
  have hps : ∀ p ∈ ([("alice", [[(1 : ℝ), 0]])] : VoiceDatabase), p.1 ≠ "bob" := by
    intro p hp
    rcases List.mem_singleton.mp hp with rfl
    decide
  have he2 : enrollVec [("alice", [[(1 : ℝ), 0]])] "bob" [1, 0]
      = [("alice", [[1, 0]]), ("bob", [[1, 0]])] := by
    rw [enrollVec_absent [("alice", [[(1 : ℝ), 0]])] "bob" [1, 0] hps]
    rfl
  show identify_speaker [(1 : ℝ), 0]
      (enrollVec [("alice", [[(1 : ℝ), 0]])] "bob" [1, 0]) = ("alice", 1)
  rw [he2, identify_cons]
  have h1 : (pairs [("alice", [[(1 : ℝ), 0]]), ("bob", [[1, 0]])]).any
      (fun p => p.2.length != ([(1 : ℝ), 0]).length) = false := by
    simp [pairs]
  have h3 : ¬ (((1 : ℝ), ("alice" : String)).1 < 0.70) := by
    show ¬ ((1 : ℝ) < 0.70)
    norm_num
  rw [h1, if_neg Bool.false_ne_true, scanDb_two_identical, if_neg h3]

/-- Claim C8 (amended): if `S` is not yet enrolled, every enrolled vector
matches the query's dimension, `V` has nonzero norm, and no already
enrolled vector has cosine similarity `1` with `V`, then enrolling `V`
for `S` and identifying with `V` returns `(S, 1)`; the confidence `1`
meets the claimed `0.999` bound and exceeds the `0.70` threshold. -/
theorem c8_enroll_identify (db : VoiceDatabase) (S : String) (V : EmbeddingVector)
    (hS : ∀ p ∈ db, p.1 ≠ S)
    (hdim : ∀ p ∈ pairs db, p.2.length = V.length)
    (hV : norm2 V ≠ 0)
    (hsim : ∀ p ∈ simPairs V db, ∀ x : ℝ, p.2 = some x → x < 1) :
    identify_speaker V (enrollVec db S V) = (S, 1) ∧ (0.999 : ℝ) ≤ 1 := by
  refine ⟨?_, by norm_num⟩
  rw [enrollVec_absent db S V hS]
  have hne : db ++ [(S, [V])] ≠ [] := by simp
  rw [identify_of_ne_nil V (db ++ [(S, [V])]) hne]
  have h1 : (pairs (db ++ [(S, [V])])).any (fun p => p.2.length != V.length) = false := by
    rw [pairs_append, pairs_single, List.any_eq_false]
    intro p hpmem
    rcases List.mem_append.mp hpmem with hL | hR
    · simp [hdim p hL]
    · rcases List.mem_singleton.mp hR with rfl
      simp
  have h2 : scanDb V (db ++ [(S, [V])]) = (1, S) := by
    rw [scanDb_eq, simPairs_append, simPairs_single, cosineSim_self V hV]
    exact scanFold_append_max (simPairs V db) S hsim
  have h3 : ¬ (((1 : ℝ), S).1 < 0.70) := by
    show ¬ ((1 : ℝ) < 0.70)
    norm_num
  rw [h1, if_neg Bool.false_ne_true, h2, if_neg h3]

/-- Claim C8 witness: enrolling `"dave"` with `[1, 0]` next to an
orthogonally enrolled `"carol"` and querying with the same vector. -/
theorem c8_identify_witness :
    (∀ p ∈ ([("carol", [[0, 1]])] : VoiceDatabase), p.1 ≠ "dave") ∧
    (∀ p ∈ pairs ([("carol", [[0, 1]])] : VoiceDatabase),
      p.2.length = ([(1 : ℝ), 0]).length) ∧
    norm2 [(1 : ℝ), 0] ≠ 0 ∧
    (∀ p ∈ simPairs [(1 : ℝ), 0] [("carol", [[0, 1]])], ∀ x : ℝ,
      p.2 = some x → x < 1) ∧
    (identify_speaker [(1 : ℝ), 0] (enrollVec [("carol", [[0, 1]])] "dave" [1, 0])
        = ("dave", 1) ∧ (0.999 : ℝ) ≤ 1) := by
  have hS : ∀ p ∈ ([("carol", [[0, 1]])] : VoiceDatabase), p.1 ≠ "dave" := by
    intro p hp
    rcases List.mem_singleton.mp hp with rfl
    decide
  have hdim : ∀ p ∈ pairs ([("carol", [[0, 1]])] : VoiceDatabase),
      p.2.length = ([(1 : ℝ), 0]).length := by
    intro p hp
    rw [pairs_single] at hp
    rcases List.mem_singleton.mp hp with rfl
    rfl
  have hV : norm2 [(1 : ℝ), 0] ≠ 0 := by
    unfold norm2
    norm_num
  have hsim : ∀ p ∈ simPairs [(1 : ℝ), 0] [("carol", [[0, 1]])], ∀ x : ℝ,
      p.2 = some x → x < 1 := by
    intro p hp x hx
    rw [simPairs_single, cosineSim_10_01] at hp
    rcases List.mem_singleton.mp hp with rfl
    obtain rfl : (0 : ℝ) = x := Option.some.inj hx
    norm_num
  exact ⟨hS, hdim, hV, hsim,
    c8_enroll_identify [("carol", [[0, 1]])] "dave" [1, 0] hS hdim hV hsim⟩

end Wispr
